import Mathlib

/-!
Verification development for the `head` repository: a fluent builder that
accumulates an ordered sequence of head-metadata declarations
(`meta` / `link` / `script` / `style` records) and emits them either as the
raw ordered list or through a pluggable adapter (a grouping adapter for
TanStack Router, an element-tree adapter for React).

The definitions below are a shallow embedding of the TypeScript sources:

* `src/types.ts`  — `HeadElement`, the kind enumeration, the adapter interface;
* `src/utils.ts`  — `isElementOfType`, `getChildren`;
* `src/index.ts`  — the raw-only `HeadBuilder` (embedded in namespace `Index`);
* `src/builder.ts` — the generic, adapter-capable `HeadBuilder`;
* `src/adapters/tanstack-router.ts` — `HeadTanstackRouterAdapter`;
* `src/adapters/react.ts` — `HeadReactAdapter`.

JavaScript attribute objects are embedded as ordered association lists from
attribute names to primitive attribute values; property access, the `in`
operator, object spread and template-literal number formatting are embedded
by small explicitly-defined functions.
-/

/-- Kind discriminant of a head declaration: the closed string union
`"meta" | "link" | "script" | "style"` of `src/types.ts`. -/
inductive HeadElementType where
  | meta
  | link
  | script
  | style
deriving DecidableEq, Repr

/-- String value of a kind, as it appears in the TypeScript union (used by
the template literal of the React adapter). -/
def headElementTypeStr : HeadElementType → String
  | .meta => "meta"
  | .link => "link"
  | .script => "script"
  | .style => "style"

/-- Primitive JavaScript attribute value (string, boolean or number), the
value shapes attribute objects carry in this library. -/
inductive AttrValue where
  | str (s : String)
  | bool (b : Bool)
  | num (n : Int)
deriving DecidableEq, Repr

/-- JS `String(v)` conversion on primitive attribute values. -/
def attrValueToString : AttrValue → String
  | .str s => s
  | .bool true => "true"
  | .bool false => "false"
  | .num n => toString n

/-- A JavaScript attributes object: an ordered association list from
attribute names to values (a well-formed object has pairwise distinct
names). -/
abbrev Attributes := List (String × AttrValue)

/-- JS property read `o[k]` on an attributes object: the entry named `k`
(first occurrence; in a well-formed object names are distinct). Also decides
the `'k' in o` test: the property is present exactly when the result is
`some`. -/
def objLookup (o : Attributes) (k : String) : Option AttrValue :=
  (o.find? (fun p => p.1 == k)).map (·.2)

/-- One head declaration `{ type, attributes }` (`HeadElement` of
`src/types.ts`). -/
structure HeadElement where
  type : HeadElementType
  attributes : Attributes
deriving DecidableEq, Repr

/-- Type guard `isElementOfType` of `src/utils.ts`: the strict equality test
`element.type === type`. -/
def isElementOfType (element : HeadElement) (type : HeadElementType) : Bool :=
  decide (element.type = type)

/-- Function `getChildren` of `src/utils.ts`: if `'children' in attributes`
then `String(attributes.children)` else `''`. Total by construction. -/
def getChildren (attributes : Attributes) : String :=
  match objLookup attributes "children" with
  | some v => attrValueToString v
  | none => ""

/-- The `URL` value stored as `metadataBase` (external web API; only stored
and returned by this library, never inspected). -/
structure URL where
  href : String
deriving DecidableEq, Repr

/-- Runtime value returned by `build()` of the generic builder
(`src/builder.ts`): either the raw element array (the unchecked cast taken
when no adapter is present) or the adapter's output. -/
inductive BuildResult (TOutput : Type) where
  | raw (elements : List HeadElement)
  | adapted (output : TOutput)
deriving DecidableEq, Repr

/-- State of the generic, adapter-capable `HeadBuilder<TOutput>` of
`src/builder.ts`: its three private fields. An adapter instance is embedded
by its single `transform` method. -/
structure HeadBuilder (TOutput : Type) where
  metadataBase : Option URL
  elements : List HeadElement
  adapter : Option (List HeadElement → TOutput)

/-- Constructor of `HeadBuilder` (`src/builder.ts`): starts with an empty
element list and stores `options?.metadataBase` and `options?.adapter`; the
two optional-chaining reads are passed here directly, an absent options
object corresponding to both arguments being `none`. -/
def HeadBuilder.construct {TOutput : Type} (metadataBase : Option URL)
    (adapter : Option (List HeadElement → TOutput)) : HeadBuilder TOutput :=
  { metadataBase := metadataBase, elements := [], adapter := adapter }

/-- Private method `addElement` (`src/builder.ts`): pushes
`{ type, attributes }` onto the element array and returns `this`. -/
def HeadBuilder.addElement {TOutput : Type} (b : HeadBuilder TOutput)
    (type : HeadElementType) (attributes : Attributes) : HeadBuilder TOutput :=
  { b with elements := b.elements ++ [{ type := type, attributes := attributes }] }

/-- Method `addMeta` (`src/builder.ts`). -/
def HeadBuilder.addMeta {TOutput : Type} (b : HeadBuilder TOutput)
    (attributes : Attributes) : HeadBuilder TOutput :=
  b.addElement .meta attributes

/-- Method `addLink` (`src/builder.ts`). -/
def HeadBuilder.addLink {TOutput : Type} (b : HeadBuilder TOutput)
    (attributes : Attributes) : HeadBuilder TOutput :=
  b.addElement .link attributes

/-- Method `addScript` (`src/builder.ts`). -/
def HeadBuilder.addScript {TOutput : Type} (b : HeadBuilder TOutput)
    (attributes : Attributes) : HeadBuilder TOutput :=
  b.addElement .script attributes

/-- Method `addStyle` (`src/builder.ts`). -/
def HeadBuilder.addStyle {TOutput : Type} (b : HeadBuilder TOutput)
    (attributes : Attributes) : HeadBuilder TOutput :=
  b.addElement .style attributes

/-- Method `getMetadataBase` (`src/builder.ts`): returns the stored
`metadataBase` (or `undefined`, embedded as `none`). -/
def HeadBuilder.getMetadataBase {TOutput : Type} (b : HeadBuilder TOutput) :
    Option URL :=
  b.metadataBase

/-- Method `build` (`src/builder.ts`): `if (this.adapter) return
this.adapter.transform(this.elements); return this.elements as TOutput`.
The unchecked cast of the adapterless branch is embedded by the
`BuildResult.raw` injection. -/
def HeadBuilder.build {TOutput : Type} (b : HeadBuilder TOutput) :
    BuildResult TOutput :=
  match b.adapter with
  | some transform => .adapted (transform b.elements)
  | none => .raw b.elements

/-- State-passing form of a `build()` method call: the method body reads
`this.adapter` and `this.elements` and writes no field, so the post-state
equals the pre-state. -/
def HeadBuilder.buildCall {TOutput : Type} (b : HeadBuilder TOutput) :
    BuildResult TOutput × HeadBuilder TOutput :=
  (b.build, b)

namespace Index

/-- State of the raw-only `HeadBuilder` of `src/index.ts`: its two private
fields (this variant has no adapter capability). -/
structure HeadBuilder where
  metadataBase : Option URL
  elements : List HeadElement

/-- Constructor of the raw-only `HeadBuilder` (`src/index.ts`): stores the
optional `metadataBase` and starts with an empty element list. -/
def HeadBuilder.construct (metadataBase : Option URL) : HeadBuilder :=
  { metadataBase := metadataBase, elements := [] }

/-- Private method `addElement` (`src/index.ts`): pushes
`{ type, attributes }` onto the element array and returns `this`. -/
def HeadBuilder.addElement (b : HeadBuilder) (type : HeadElementType)
    (attributes : Attributes) : HeadBuilder :=
  { b with elements := b.elements ++ [{ type := type, attributes := attributes }] }

/-- Method `addMeta` (`src/index.ts`). -/
def HeadBuilder.addMeta (b : HeadBuilder) (attributes : Attributes) : HeadBuilder :=
  b.addElement .meta attributes

/-- Method `addLink` (`src/index.ts`). -/
def HeadBuilder.addLink (b : HeadBuilder) (attributes : Attributes) : HeadBuilder :=
  b.addElement .link attributes

/-- Method `addScript` (`src/index.ts`). -/
def HeadBuilder.addScript (b : HeadBuilder) (attributes : Attributes) : HeadBuilder :=
  b.addElement .script attributes

/-- Method `addStyle` (`src/index.ts`). -/
def HeadBuilder.addStyle (b : HeadBuilder) (attributes : Attributes) : HeadBuilder :=
  b.addElement .style attributes

/-- Method `getMetadataBase` (`src/index.ts`). -/
def HeadBuilder.getMetadataBase (b : HeadBuilder) : Option URL :=
  b.metadataBase

/-- Method `build` (`src/index.ts`): returns the element array itself. -/
def HeadBuilder.build (b : HeadBuilder) : List HeadElement :=
  b.elements

end Index

/-- One add-operation call on a builder, tagged by which of the four public
add-methods is called and with which attributes. -/
inductive AddOp where
  | meta (attributes : Attributes)
  | link (attributes : Attributes)
  | script (attributes : Attributes)
  | style (attributes : Attributes)
deriving DecidableEq, Repr

/-- The `{ type, attributes }` record that an add-operation appends. -/
def AddOp.toElement : AddOp → HeadElement
  | .meta a => { type := .meta, attributes := a }
  | .link a => { type := .link, attributes := a }
  | .script a => { type := .script, attributes := a }
  | .style a => { type := .style, attributes := a }

/-- Performs one add-operation call on the generic builder. -/
def applyOp {TOutput : Type} (b : HeadBuilder TOutput) : AddOp → HeadBuilder TOutput
  | .meta a => b.addMeta a
  | .link a => b.addLink a
  | .script a => b.addScript a
  | .style a => b.addStyle a

/-- Performs a sequence of add-operation calls, in order, on the generic
builder. -/
def runOps {TOutput : Type} (b : HeadBuilder TOutput) (ops : List AddOp) :
    HeadBuilder TOutput :=
  ops.foldl applyOp b

/-- Performs one add-operation call on the raw-only builder. -/
def applyOpIndex (b : Index.HeadBuilder) : AddOp → Index.HeadBuilder
  | .meta a => b.addMeta a
  | .link a => b.addLink a
  | .script a => b.addScript a
  | .style a => b.addStyle a

/-- Performs a sequence of add-operation calls, in order, on the raw-only
builder. -/
def runOpsIndex (b : Index.HeadBuilder) (ops : List AddOp) : Index.HeadBuilder :=
  ops.foldl applyOpIndex b

lemma runOps_eq {TOutput : Type} (ops : List AddOp) (b : HeadBuilder TOutput) :
    runOps b ops =
      { metadataBase := b.metadataBase,
        elements := b.elements ++ ops.map AddOp.toElement,
        adapter := b.adapter } := by
  induction ops generalizing b with
  | nil => simp [runOps]
  | cons op rest ih =>
    have h : runOps b (op :: rest) = runOps (applyOp b op) rest := rfl
    rw [h, ih]
    cases op <;>
      simp [applyOp, HeadBuilder.addMeta, HeadBuilder.addLink, HeadBuilder.addScript,
        HeadBuilder.addStyle, HeadBuilder.addElement, AddOp.toElement]

lemma runOpsIndex_eq (ops : List AddOp) (b : Index.HeadBuilder) :
    runOpsIndex b ops =
      { metadataBase := b.metadataBase,
        elements := b.elements ++ ops.map AddOp.toElement } := by
  induction ops generalizing b with
  | nil => simp [runOpsIndex]
  | cons op rest ih =>
    have h : runOpsIndex b (op :: rest) = runOpsIndex (applyOpIndex b op) rest := rfl
    rw [h, ih]
    cases op <;>
      simp [applyOpIndex, Index.HeadBuilder.addMeta, Index.HeadBuilder.addLink,
        Index.HeadBuilder.addScript, Index.HeadBuilder.addStyle,
        Index.HeadBuilder.addElement, AddOp.toElement]

/-- Output shape of the TanStack Router adapter
(`HeadTanStackRouterAdapterResult`): a record with four optional fields,
each a list of attribute objects. -/
structure HeadTanStackRouterAdapterResult where
  links : Option (List Attributes)
  scripts : Option (List Attributes)
  meta : Option (List Attributes)
  styles : Option (List Attributes)
deriving DecidableEq, Repr

/-- One iteration of the `for (const element of elements)` loop of
`HeadTanstackRouterAdapter`: classify `element` by `isElementOfType` and push
its attributes onto the matching bucket via optional chaining
(`config.meta?.push(...)` is a no-op when the field is absent); an element
matching no branch is skipped. -/
def tanstackStep (config : HeadTanStackRouterAdapterResult) (element : HeadElement) :
    HeadTanStackRouterAdapterResult :=
  if isElementOfType element .meta then
    { config with meta := config.meta.map (· ++ [element.attributes]) }
  else if isElementOfType element .link then
    { config with links := config.links.map (· ++ [element.attributes]) }
  else if isElementOfType element .script then
    { config with scripts := config.scripts.map (· ++ [element.attributes]) }
  else if isElementOfType element .style then
    { config with styles := config.styles.map (· ++ [element.attributes]) }
  else
    config

/-- Instance method `transform` of `HeadTanstackRouterAdapter`
(`src/adapters/tanstack-router.ts`): initialize all four buckets to empty
arrays, then run the classification loop over the input. -/
def HeadTanstackRouterAdapter.transform (elements : List HeadElement) :
    HeadTanStackRouterAdapterResult :=
  elements.foldl tanstackStep
    { meta := some [], links := some [], scripts := some [], styles := some [] }

/-- Static method `adapter` of `HeadTanstackRouterAdapter` (the revision of
the file exposing the `adapter` entry point); its body is the same
initialization and loop as `transform`. -/
def HeadTanstackRouterAdapter.adapter (elements : List HeadElement) :
    HeadTanStackRouterAdapterResult :=
  elements.foldl tanstackStep
    { meta := some [], links := some [], scripts := some [], styles := some [] }

lemma tanstack_foldl_eq (elements : List HeadElement)
    (config : HeadTanStackRouterAdapterResult) :
    elements.foldl tanstackStep config =
      { meta := config.meta.map
          (· ++ (elements.filter (isElementOfType · .meta)).map HeadElement.attributes),
        links := config.links.map
          (· ++ (elements.filter (isElementOfType · .link)).map HeadElement.attributes),
        scripts := config.scripts.map
          (· ++ (elements.filter (isElementOfType · .script)).map HeadElement.attributes),
        styles := config.styles.map
          (· ++ (elements.filter (isElementOfType · .style)).map HeadElement.attributes) } := by
  induction elements generalizing config with
  | nil =>
    cases config
    simp
  | cons e rest ih =>
    have h : (e :: rest).foldl tanstackStep config =
        rest.foldl tanstackStep (tanstackStep config e) := rfl
    rw [h, ih]
    cases he : e.type <;>
      cases config <;>
        simp [tanstackStep, isElementOfType, he, Option.map_map, Function.comp_def]

/-- Decimal digit character for a digit value (the characters a JS
template literal produces when interpolating a nonnegative integer);
argument reduced mod 10 so the function is total. -/
def digitChar (d : Nat) : Char :=
  match d % 10 with
  | 0 => '0'
  | 1 => '1'
  | 2 => '2'
  | 3 => '3'
  | 4 => '4'
  | 5 => '5'
  | 6 => '6'
  | 7 => '7'
  | 8 => '8'
  | _ => '9'

/-- Digit characters of a nonnegative integer, most significant first, with
explicit fuel (any fuel above the argument is enough). -/
def natReprAux : Nat → Nat → List Char
  | 0, _ => []
  | fuel + 1, n =>
    if n < 10 then [digitChar n] else natReprAux fuel (n / 10) ++ [digitChar (n % 10)]

/-- Embedding of JS template-literal interpolation of a nonnegative integer:
its decimal string. -/
def jsNatRepr (n : Nat) : String :=
  (natReprAux (n + 1) n).asString

/-- Numeric value of a decimal digit character. -/
def charVal (c : Char) : Nat :=
  c.toNat - 48

/-- Decimal value of a digit-character list, most significant first. -/
def unreprChars (l : List Char) : Nat :=
  l.foldl (fun a c => 10 * a + charVal c) 0

lemma charVal_digitChar : ∀ d : Nat, d < 10 → charVal (digitChar d) = d := by
  decide

lemma digitChar_ne_dash (d : Nat) : digitChar d ≠ '-' := by
  have h : d % 10 < 10 := Nat.mod_lt _ (by omega)
  unfold digitChar
  revert h
  generalize d % 10 = r
  intro h
  interval_cases r <;> decide

lemma unreprChars_append (l : List Char) (c : Char) :
    unreprChars (l ++ [c]) = 10 * unreprChars l + charVal c := by
  simp [unreprChars, List.foldl_append]

lemma unreprChars_natReprAux :
    ∀ fuel n : Nat, n < fuel → unreprChars (natReprAux fuel n) = n := by
  intro fuel
  induction fuel with
  | zero => omega
  | succ f ih =>
    intro n hn
    by_cases h : n < 10
    · simp [natReprAux, h, unreprChars, charVal_digitChar n h]
    · have hdiv : n / 10 < n := Nat.div_lt_self (by omega) (by omega)
      have hfuel : n / 10 < f := by omega
      have hmod : n % 10 < 10 := Nat.mod_lt _ (by omega)
      have hdm := Nat.div_add_mod n 10
      simp only [natReprAux, if_neg h]
      rw [unreprChars_append, ih (n / 10) hfuel, charVal_digitChar (n % 10) hmod]
      omega

lemma jsNatRepr_inj {m n : Nat} (h : jsNatRepr m = jsNatRepr n) : m = n := by
  have hd : natReprAux (m + 1) m = natReprAux (n + 1) n := by
    have := congrArg String.data h
    simpa [jsNatRepr] using this
  have hm := unreprChars_natReprAux (m + 1) m (by omega)
  have hn := unreprChars_natReprAux (n + 1) n (by omega)
  rw [hd] at hm
  omega

lemma natReprAux_mem :
    ∀ fuel n : Nat, ∀ c ∈ natReprAux fuel n, ∃ d : Nat, d < 10 ∧ c = digitChar d := by
  intro fuel
  induction fuel with
  | zero => intro n c hc; simp [natReprAux] at hc
  | succ f ih =>
    intro n c hc
    by_cases h : n < 10
    · simp [natReprAux, h] at hc
      exact ⟨n, h, hc⟩
    · simp only [natReprAux, if_neg h, List.mem_append, List.mem_singleton] at hc
      rcases hc with hc | hc
      · exact ih (n / 10) c hc
      · exact ⟨n % 10, Nat.mod_lt _ (by omega), hc⟩

lemma jsNatRepr_no_dash {n : Nat} {c : Char} (hc : c ∈ (jsNatRepr n).data) : c ≠ '-' := by
  have hmem : c ∈ natReprAux (n + 1) n := by simpa [jsNatRepr] using hc
  obtain ⟨d, _, rfl⟩ := natReprAux_mem (n + 1) n c hmem
  exact digitChar_ne_dash d

/-- Embedding of `Array.prototype.map` with its index argument
(`elements.map((element, index) => ...)`), the position counter starting at
`start`. -/
def mapIdxFrom {α β : Type} (f : Nat → α → β) (start : Nat) : List α → List β
  | [] => []
  | a :: as => f start a :: mapIdxFrom f (start + 1) as

lemma mapIdxFrom_length {α β : Type} (f : Nat → α → β) :
    ∀ (l : List α) (start : Nat), (mapIdxFrom f start l).length = l.length := by
  intro l
  induction l with
  | nil => intro start; rfl
  | cons a as ih => intro start; simp [mapIdxFrom, ih]

lemma mapIdxFrom_get {α β : Type} (f : Nat → α → β) :
    ∀ (l : List α) (start i : Nat) (h : i < (mapIdxFrom f start l).length)
      (h' : i < l.length),
      (mapIdxFrom f start l).get ⟨i, h⟩ = f (start + i) (l.get ⟨i, h'⟩) := by
  intro l
  induction l with
  | nil => intro start i h h'; simp at h'
  | cons a as ih =>
    intro start i h h'
    cases i with
    | zero => simp [mapIdxFrom]
    | succ j =>
      have hj : j < (mapIdxFrom f (start + 1) as).length := by
        simpa [mapIdxFrom] using h
      have hj' : j < as.length := by simpa using h'
      have := ih (start + 1) j hj hj'
      simpa [mapIdxFrom, Nat.add_assoc, Nat.add_comm 1 j] using this

/-- A React element as produced by `createElement(type, config)`: the
element type, the identity key extracted from the config object's `key`
property (coerced to a string; `none` when absent), and the remaining
config entries as props. -/
structure ReactElement where
  elementType : HeadElementType
  key : Option String
  props : Attributes
deriving DecidableEq, Repr

/-- Embedding of the object literal `{ key: genKey, ...attributes }`: the
`key` property is inserted first, then the spread copies the attribute
entries in order, a `key` entry among them overwriting the value already
inserted (JS spread semantics: later writes win, the property keeping its
original position). -/
def spreadAfterKey (genKey : String) (attributes : Attributes) : Attributes :=
  ("key", (objLookup attributes "key").getD (.str genKey)) ::
    attributes.filter (fun p => p.1 != "key")

/-- Embedding of React's `createElement(type, config)`: the config object's
`key` property becomes the element's identity key (coerced to a string) and
the remaining properties become the element's props. -/
def createElement (type : HeadElementType) (config : Attributes) : ReactElement :=
  { elementType := type,
    key := (objLookup config "key").map attrValueToString,
    props := config.filter (fun p => p.1 != "key") }

/-- Static method `adapter` of `HeadReactAdapter` (`src/adapters/react.ts`):
`elements.map((element, index) => createElement(element.type,
{ key: "head-" + element.type + "-" + index, ...element.attributes }))`;
the instance method delegates to it unchanged. -/
def HeadReactAdapter.adapter (elements : List HeadElement) : List ReactElement :=
  mapIdxFrom
    (fun index element =>
      createElement element.type
        (spreadAfterKey
          ("head-" ++ headElementTypeStr element.type ++ "-" ++ jsNatRepr index)
          element.attributes))
    0 elements

/-- Recovers the interpolated position from a generated identity key: the
decimal value of the character run after the last dash. -/
def extractIdx (s : String) : Nat :=
  unreprChars (s.data.reverse.takeWhile (fun c => decide (c ≠ '-'))).reverse

lemma takeWhile_append_dash (b : List Char) :
    ∀ a : List Char, (∀ c ∈ a, c ≠ '-') →
      (a ++ '-' :: b).takeWhile (fun c => decide (c ≠ '-')) = a := by
  intro a
  induction a with
  | nil => intro _; simp [List.takeWhile]
  | cons c cs ih =>
    intro h
    have hc : c ≠ '-' := h c (List.mem_cons_self c cs)
    have hcs : ∀ x ∈ cs, x ≠ '-' := fun x hx => h x (List.mem_cons_of_mem c hx)
    simp [List.takeWhile_cons, hc]
    simpa using ih hcs

lemma extractIdx_key (A : String) (i : Nat) :
    extractIdx ((A ++ "-") ++ jsNatRepr i) = i := by
  have hdata : (((A ++ "-") ++ jsNatRepr i)).data =
      (A.data ++ ['-']) ++ (jsNatRepr i).data := by
    simp [String.data_append]
  have hdash : ∀ c ∈ (jsNatRepr i).data.reverse, c ≠ '-' := by
    intro c hc
    exact jsNatRepr_no_dash (List.mem_reverse.mp hc)
  have hrev : (((A ++ "-") ++ jsNatRepr i)).data.reverse =
      (jsNatRepr i).data.reverse ++ '-' :: A.data.reverse := by
    rw [hdata]
    simp
  unfold extractIdx
  rw [hrev, takeWhile_append_dash _ _ hdash, List.reverse_reverse]
  have : (jsNatRepr i).data = natReprAux (i + 1) i := rfl
  rw [this]
  exact unreprChars_natReprAux (i + 1) i (by omega)

/-- C1: for every sequence of add-operation calls on a builder constructed
without an adapter (either variant), `build()` returns the list of
`{ type, attributes }` records corresponding exactly to the appended
`(kind, attributes)` pairs, in call order, with no reordering,
deduplication or merging. -/
theorem build_without_adapter_returns_appended_sequence (TOutput : Type)
    (mb : Option URL) (ops : List AddOp) :
    (runOps ((HeadBuilder.construct mb none : HeadBuilder TOutput)) ops).build =
      .raw (ops.map AddOp.toElement) ∧
    (runOpsIndex (Index.HeadBuilder.construct mb) ops).build =
      ops.map AddOp.toElement := by
  constructor
  · rw [runOps_eq]
    simp [HeadBuilder.construct, HeadBuilder.build]
  · rw [runOpsIndex_eq]
    simp [Index.HeadBuilder.construct, Index.HeadBuilder.build]

/-- C6: if an adapter was supplied at construction then `build()` returns
exactly the adapter's transform applied to the accumulated sequence, and if
no adapter was supplied then `build()` returns the sequence itself. -/
theorem build_dispatches_on_adapter (TOutput : Type) (mb : Option URL)
    (ad : Option (List HeadElement → TOutput)) (ops : List AddOp) :
    (∀ transform, ad = some transform →
      (runOps (HeadBuilder.construct mb ad) ops).build =
        .adapted (transform (runOps (HeadBuilder.construct mb ad) ops).elements)) ∧
    (ad = none →
      (runOps (HeadBuilder.construct mb ad) ops).build =
        .raw (runOps (HeadBuilder.construct mb ad) ops).elements) := by
  constructor
  · intro t ht
    subst ht
    rw [runOps_eq]
    rfl
  · intro hn
    subst hn
    rw [runOps_eq]
    rfl

/-- Witness for C6 at concrete inputs: a length adapter is applied to the
one accumulated element, and the adapterless builder returns the raw list. -/
theorem build_dispatches_on_adapter_witness :
    (runOps ((HeadBuilder.construct none
        (some (fun l => l.length)) : HeadBuilder Nat)) [AddOp.meta []]).build = .adapted 1 ∧
    (runOps ((HeadBuilder.construct none none : HeadBuilder (List HeadElement)))
        [AddOp.meta []]).build =
      .raw [{ type := .meta, attributes := [] }] := by
  exact ⟨(build_dispatches_on_adapter Nat none (some (fun l => l.length))
            [AddOp.meta []]).1 (fun l => l.length) rfl,
         (build_dispatches_on_adapter (List HeadElement) none none
            [AddOp.meta []]).2 rfl⟩

/-- C7: `build()` is idempotent and side-effect-free: two calls with no
intervening add-operations return equal results, the call leaves the
builder's state (in particular its Declaration Sequence) unchanged, and a
later `build()` after further add-calls behaves as the `build()` of a
builder holding the sequence's contents at that call time. -/
theorem build_idempotent_and_nonconsuming (TOutput : Type)
    (b : HeadBuilder TOutput) (ops : List AddOp) :
    b.buildCall.1 = b.buildCall.2.buildCall.1 ∧
    b.buildCall.2 = b ∧
    (runOps b.buildCall.2 ops).build =
      (HeadBuilder.mk b.metadataBase (b.elements ++ ops.map AddOp.toElement)
        b.adapter).build := by
  refine ⟨rfl, rfl, ?_⟩
  rw [show b.buildCall.2 = b from rfl, runOps_eq]

/-- C8: the raw-only builder of `src/index.ts` and the generic builder of
`src/builder.ts` constructed without an adapter accumulate identical
Declaration Sequences under any sequence of add-calls, and their `build()`
results are equal (the generic variant returning the same list through the
unchecked-cast branch embedded by `BuildResult.raw`). -/
theorem index_and_generic_builders_agree (TOutput : Type) (mb : Option URL)
    (ops : List AddOp) :
    (runOpsIndex (Index.HeadBuilder.construct mb) ops).elements =
      (runOps ((HeadBuilder.construct mb none : HeadBuilder TOutput)) ops).elements ∧
    (runOps ((HeadBuilder.construct mb none : HeadBuilder TOutput)) ops).build =
      .raw ((runOpsIndex (Index.HeadBuilder.construct mb) ops).build) := by
  rw [runOps_eq, runOpsIndex_eq]
  exact ⟨rfl, rfl⟩

/-- C9: `getMetadataBase()` returns exactly the base URL passed at
construction (`none` embedding the unset sentinel), on both builder
variants, and the base URL never affects any Declaration: two builders
differing only in their `metadataBase` produce identical element sequences
and equal `build()` outputs under the same add-calls. -/
theorem metadataBase_stored_and_never_affects_elements (TOutput : Type)
    (mb mb2 : Option URL) (ad : Option (List HeadElement → TOutput))
    (ops : List AddOp) :
    (runOps (HeadBuilder.construct mb ad) ops).getMetadataBase = mb ∧
    (runOpsIndex (Index.HeadBuilder.construct mb) ops).getMetadataBase = mb ∧
    (runOps (HeadBuilder.construct mb ad) ops).elements =
      (runOps (HeadBuilder.construct mb2 ad) ops).elements ∧
    (runOps (HeadBuilder.construct mb ad) ops).build =
      (runOps (HeadBuilder.construct mb2 ad) ops).build := by
  simp only [runOps_eq, runOpsIndex_eq]
  refine ⟨rfl, rfl, rfl, ?_⟩
  cases ad <;> rfl

/-- C10: `getChildren` is total (a Lean function by construction) and, for
every attributes object, returns the string conversion of the `children`
property when present and the empty string otherwise. -/
theorem getChildren_children_or_empty (attributes : Attributes) :
    (∀ v, objLookup attributes "children" = some v →
      getChildren attributes = attrValueToString v) ∧
    (objLookup attributes "children" = none → getChildren attributes = "") := by
  constructor
  · intro v hv
    simp [getChildren, hv]
  · intro hv
    simp [getChildren, hv]

/-- Witness for C10 at concrete inputs: an object carrying a `children`
entry, and the empty object. -/
theorem getChildren_children_or_empty_witness :
    getChildren [("children", AttrValue.str "body")] = "body" ∧
    getChildren [] = "" := by
  exact ⟨(getChildren_children_or_empty _).1 (AttrValue.str "body") rfl,
         (getChildren_children_or_empty _).2 rfl⟩

lemma filter_kind_length_sum (elements : List HeadElement) :
    (elements.filter (isElementOfType · .meta)).length +
      (elements.filter (isElementOfType · .link)).length +
      (elements.filter (isElementOfType · .script)).length +
      (elements.filter (isElementOfType · .style)).length = elements.length := by
  induction elements with
  | nil => rfl
  | cons e rest ih =>
    cases he : e.type <;>
      simp [List.filter_cons, isElementOfType, he] at ih ⊢ <;> omega

/-- C2: the grouping adapter fills each bucket with exactly the attribute
objects of the input elements of the matching kind, in the input's relative
order for that kind (each bucket equals the kind-filtered input mapped to
its attributes), so the total count across the four buckets equals the
input length; the `adapter` entry point agrees with `transform`. -/
theorem tanstack_buckets_by_kind (elements : List HeadElement) :
    (HeadTanstackRouterAdapter.transform elements).meta =
      some ((elements.filter (isElementOfType · .meta)).map HeadElement.attributes) ∧
    (HeadTanstackRouterAdapter.transform elements).links =
      some ((elements.filter (isElementOfType · .link)).map HeadElement.attributes) ∧
    (HeadTanstackRouterAdapter.transform elements).scripts =
      some ((elements.filter (isElementOfType · .script)).map HeadElement.attributes) ∧
    (HeadTanstackRouterAdapter.transform elements).styles =
      some ((elements.filter (isElementOfType · .style)).map HeadElement.attributes) ∧
    ((HeadTanstackRouterAdapter.transform elements).meta.getD []).length +
      ((HeadTanstackRouterAdapter.transform elements).links.getD []).length +
      ((HeadTanstackRouterAdapter.transform elements).scripts.getD []).length +
      ((HeadTanstackRouterAdapter.transform elements).styles.getD []).length =
      elements.length ∧
    HeadTanstackRouterAdapter.adapter elements =
      HeadTanstackRouterAdapter.transform elements := by
  have ht : HeadTanstackRouterAdapter.transform elements =
      { meta := some ((elements.filter (isElementOfType · .meta)).map HeadElement.attributes),
        links := some ((elements.filter (isElementOfType · .link)).map HeadElement.attributes),
        scripts := some ((elements.filter (isElementOfType · .script)).map HeadElement.attributes),
        styles := some ((elements.filter (isElementOfType · .style)).map HeadElement.attributes) } := by
    unfold HeadTanstackRouterAdapter.transform
    rw [tanstack_foldl_eq]
    simp
  refine ⟨by rw [ht], by rw [ht], by rw [ht], by rw [ht], ?_, rfl⟩
  rw [ht]
  simpa using filter_kind_length_sum elements

/-- C3: the grouping adapter's output always carries all four keys, each
bound to a list (`isSome`), and a key whose kind has no element in the
input is bound to the empty list. -/
theorem tanstack_all_buckets_present (elements : List HeadElement) :
    (HeadTanstackRouterAdapter.transform elements).meta.isSome = true ∧
    (HeadTanstackRouterAdapter.transform elements).links.isSome = true ∧
    (HeadTanstackRouterAdapter.transform elements).scripts.isSome = true ∧
    (HeadTanstackRouterAdapter.transform elements).styles.isSome = true ∧
    ((∀ e ∈ elements, e.type ≠ .meta) →
      (HeadTanstackRouterAdapter.transform elements).meta = some []) ∧
    ((∀ e ∈ elements, e.type ≠ .link) →
      (HeadTanstackRouterAdapter.transform elements).links = some []) ∧
    ((∀ e ∈ elements, e.type ≠ .script) →
      (HeadTanstackRouterAdapter.transform elements).scripts = some []) ∧
    ((∀ e ∈ elements, e.type ≠ .style) →
      (HeadTanstackRouterAdapter.transform elements).styles = some []) := by
  have h := tanstack_buckets_by_kind elements
  obtain ⟨hm, hl, hsc, hst, -, -⟩ := h
  refine ⟨by rw [hm]; rfl, by rw [hl]; rfl, by rw [hsc]; rfl, by rw [hst]; rfl,
    ?_, ?_, ?_, ?_⟩ <;> intro hnone
  · rw [hm]
    have : elements.filter (isElementOfType · .meta) = [] := by
      simp only [List.filter_eq_nil_iff]
      intro e he
      simp [isElementOfType, hnone e he]
    simp [this]
  · rw [hl]
    have : elements.filter (isElementOfType · .link) = [] := by
      simp only [List.filter_eq_nil_iff]
      intro e he
      simp [isElementOfType, hnone e he]
    simp [this]
  · rw [hsc]
    have : elements.filter (isElementOfType · .script) = [] := by
      simp only [List.filter_eq_nil_iff]
      intro e he
      simp [isElementOfType, hnone e he]
    simp [this]
  · rw [hst]
    have : elements.filter (isElementOfType · .style) = [] := by
      simp only [List.filter_eq_nil_iff]
      intro e he
      simp [isElementOfType, hnone e he]
    simp [this]

/-- Witness for C3 at a concrete input: one meta element, so the meta
bucket is filled and the other three empty-kind buckets are empty lists. -/
theorem tanstack_all_buckets_present_witness :
    (HeadTanstackRouterAdapter.transform
        [{ type := .meta, attributes := [("charSet", AttrValue.str "utf-8")] }]).links =
      some [] ∧
    (HeadTanstackRouterAdapter.transform
        [{ type := .meta, attributes := [("charSet", AttrValue.str "utf-8")] }]).scripts =
      some [] ∧
    (HeadTanstackRouterAdapter.transform
        [{ type := .meta, attributes := [("charSet", AttrValue.str "utf-8")] }]).styles =
      some [] := by
  have h := tanstack_all_buckets_present
    [{ type := .meta, attributes := [("charSet", AttrValue.str "utf-8")] }]
  exact ⟨h.2.2.2.2.2.1 (by decide), h.2.2.2.2.2.2.1 (by decide),
    h.2.2.2.2.2.2.2 (by decide)⟩

lemma filter_ne_key_of_lookup_none (k : String) (attrs : Attributes)
    (h : objLookup attrs k = none) :
    attrs.filter (fun p => p.1 != k) = attrs := by
  rw [List.filter_eq_self]
  intro p hp
  have hfind : attrs.find? (fun p => p.1 == k) = none := by
    cases hf : attrs.find? (fun p => p.1 == k) with
    | none => rfl
    | some q => rw [objLookup, hf] at h; simp at h
  have := List.find?_eq_none.mp hfind p hp
  simpa using this

lemma createElement_spread_props (t : HeadElementType) (g : String)
    (attrs : Attributes) :
    (createElement t (spreadAfterKey g attrs)).props =
      attrs.filter (fun p => p.1 != "key") := by
  simp [createElement, spreadAfterKey, List.filter_cons, List.filter_filter]

lemma createElement_spread_key_none (t : HeadElementType) (g : String)
    (attrs : Attributes) (h : objLookup attrs "key" = none) :
    (createElement t (spreadAfterKey g attrs)).key = some g := by
  have h' : Option.map (fun x => x.2) (attrs.find? (fun p => p.1 == "key")) = none := h
  simp [createElement, spreadAfterKey, objLookup, List.find?_cons, attrValueToString]
  rw [h']
  rfl

/-- Input refuting C4 as stated: the React attribute types admit a `key`
property, and the spread `{ key: generated, ...attributes }` places it after
the generated key, so `createElement` extracts it and the node's non-key
props are the attributes with the `key` entry removed, not the attributes
themselves. -/
def reactPropsCounterexampleInput : List HeadElement :=
  [{ type := .meta, attributes := [("key", .str "a"), ("name", .str "x")] }]

/-- Counterexample to C4 as stated: at a declaration whose attributes carry
a `key` entry, the output node's non-key properties differ from the input
attributes. -/
theorem react_adapter_props_ne_attributes :
    ((HeadReactAdapter.adapter reactPropsCounterexampleInput).get
        ⟨0, by decide⟩).props ≠
      (reactPropsCounterexampleInput.get ⟨0, by decide⟩).attributes := by
  decide

/-- C4 amended: the element-tree adapter is a 1:1, order-preserving map —
output length equals input length, and at every position the node's element
type equals the input element's kind and its non-key properties equal the
input attributes with any `key` entry removed (hence equal to the
attributes exactly whenever they contain no `key` entry). -/
theorem react_adapter_shape (elements : List HeadElement) :
    (HeadReactAdapter.adapter elements).length = elements.length ∧
    ∀ (i : Nat) (h : i < (HeadReactAdapter.adapter elements).length)
      (h' : i < elements.length),
      ((HeadReactAdapter.adapter elements).get ⟨i, h⟩).elementType =
        (elements.get ⟨i, h'⟩).type ∧
      ((HeadReactAdapter.adapter elements).get ⟨i, h⟩).props =
        (elements.get ⟨i, h'⟩).attributes.filter (fun p => p.1 != "key") ∧
      (objLookup (elements.get ⟨i, h'⟩).attributes "key" = none →
        ((HeadReactAdapter.adapter elements).get ⟨i, h⟩).props =
          (elements.get ⟨i, h'⟩).attributes) := by
  refine ⟨mapIdxFrom_length _ elements 0, ?_⟩
  intro i h h'
  unfold HeadReactAdapter.adapter at h ⊢
  rw [mapIdxFrom_get _ elements 0 i h h']
  simp only [Nat.zero_add]
  refine ⟨rfl, createElement_spread_props _ _ _, ?_⟩
  intro hk
  rw [createElement_spread_props _ _ _, filter_ne_key_of_lookup_none _ _ hk]

/-- Witness for C4 (amended) at a concrete input without a `key` entry: the
single output node keeps the input attributes as its props. -/
theorem react_adapter_shape_witness :
    (HeadReactAdapter.adapter
        [{ type := .link, attributes := [("rel", AttrValue.str "canonical")] }]).length =
      1 ∧
    ((HeadReactAdapter.adapter
        [{ type := .link, attributes := [("rel", AttrValue.str "canonical")] }]).get
          ⟨0, by decide⟩).props =
      [("rel", AttrValue.str "canonical")] := by
  have h := react_adapter_shape
    [{ type := .link, attributes := [("rel", AttrValue.str "canonical")] }]
  exact ⟨h.1, (h.2 0 (by decide) (by decide)).2.2 rfl⟩

/-- Input refuting C5 as stated: attributes-supplied `key` entries override
the generated identity keys via the spread, here giving two nodes the same
key. -/
def reactKeyCounterexampleInput : List HeadElement :=
  [{ type := .meta, attributes := [("key", .str "a")] },
   { type := .link, attributes := [("key", .str "a")] }]

/-- Counterexample to C5 as stated: at declarations whose attributes carry
`key` entries, the node at position 0 does not get the derived key
`head-meta-0`, and the keys of the two output nodes coincide, so they are
not pairwise distinct. -/
theorem react_adapter_keys_not_distinct :
    ((HeadReactAdapter.adapter reactKeyCounterexampleInput).get
        ⟨0, by decide⟩).key ≠ some "head-meta-0" ∧
    ((HeadReactAdapter.adapter reactKeyCounterexampleInput).get
        ⟨0, by decide⟩).key =
      ((HeadReactAdapter.adapter reactKeyCounterexampleInput).get
        ⟨1, by decide⟩).key := by
  decide

/-- C5 amended: provided no element's attributes contain a `key` entry, the
element-tree adapter assigns the node at position `i` of kind `k` the
identity key `head-{k}-{i}` derived deterministically from `(k, i)`, and
the keys of the output nodes are pairwise distinct (an attributes-supplied
`key` would instead override the generated key). -/
theorem react_adapter_keys (elements : List HeadElement)
    (hk : ∀ e ∈ elements, objLookup e.attributes "key" = none) :
    (∀ (i : Nat) (h : i < (HeadReactAdapter.adapter elements).length)
        (h' : i < elements.length),
      ((HeadReactAdapter.adapter elements).get ⟨i, h⟩).key =
        some ("head-" ++ headElementTypeStr (elements.get ⟨i, h'⟩).type ++ "-" ++
          jsNatRepr i)) ∧
    (∀ (i j : Nat) (hi : i < (HeadReactAdapter.adapter elements).length)
        (hj : j < (HeadReactAdapter.adapter elements).length)
        (hi' : i < elements.length) (hj' : j < elements.length), i ≠ j →
      ((HeadReactAdapter.adapter elements).get ⟨i, hi⟩).key ≠
        ((HeadReactAdapter.adapter elements).get ⟨j, hj⟩).key) := by
  have hkey : ∀ (i : Nat) (h : i < (HeadReactAdapter.adapter elements).length)
      (h' : i < elements.length),
      ((HeadReactAdapter.adapter elements).get ⟨i, h⟩).key =
        some ("head-" ++ headElementTypeStr (elements.get ⟨i, h'⟩).type ++ "-" ++
          jsNatRepr i) := by
    intro i h h'
    unfold HeadReactAdapter.adapter at h ⊢
    rw [mapIdxFrom_get _ elements 0 i h h']
    simp only [Nat.zero_add]
    exact createElement_spread_key_none _ _ _ (hk _ (elements.get_mem i h'))
  refine ⟨hkey, ?_⟩
  intro i j hi hj hi' hj' hne heq
  rw [hkey i hi hi', hkey j hj hj'] at heq
  have hstr := Option.some.inj heq
  have hext := congrArg extractIdx hstr
  rw [extractIdx_key ("head-" ++ headElementTypeStr (elements.get ⟨i, hi'⟩).type) i,
    extractIdx_key ("head-" ++ headElementTypeStr (elements.get ⟨j, hj'⟩).type) j]
    at hext
  exact hne hext

/-- Witness for C5 (amended) at a concrete input without `key` entries: the
first node gets the derived key and differs from the second node's key. -/
theorem react_adapter_keys_witness :
    ((HeadReactAdapter.adapter
        [{ type := .meta, attributes := [] }, { type := .meta, attributes := [] }]).get
          ⟨0, by decide⟩).key = some "head-meta-0" ∧
    ((HeadReactAdapter.adapter
        [{ type := .meta, attributes := [] }, { type := .meta, attributes := [] }]).get
          ⟨0, by decide⟩).key ≠
      ((HeadReactAdapter.adapter
        [{ type := .meta, attributes := [] }, { type := .meta, attributes := [] }]).get
          ⟨1, by decide⟩).key := by
  have h := react_adapter_keys
    [{ type := .meta, attributes := [] }, { type := .meta, attributes := [] }]
    (by decide)
  constructor
  · rw [h.1 0 (by decide) (by decide)]
    decide
  · exact h.2 0 1 (by decide) (by decide) (by decide) (by decide) (by decide)
